import Mathlib

/-
A verification development for the `cmd` package: a command-dispatch layer
that lets a single executable expose multiple named subcommands, each with
its own flag set, usage text and run behavior.

The definitions below embed the package's data model (Command, its flag
set, the error values) and its operations (LongName, String, configure,
Parse, Run, SetExitStatus), following the most recent complete variant of
the sources (the one whose API the package's own tests exercise: `Parse`
taking the root command and the argument vector, `Run` returning an exit
status, the Posix exit-status constants, and the exported ErrHelp).  The
theorems then check the specification's statements against them.

Go's flag package is an external collaborator of the package; its parsing
loop (stop at the first non-flag token, the `--` terminator, inline
`name=value` forms, the special undefined `-h`/`-help` handling, boolean
versus value-taking flags) is embedded here because the resolver's contract
depends on exactly when it stops and what it leaves behind.
-/

/-- Output destinations a flag set can write to.  The writer stored in a
flag set is either unset (`none`, which the flag package treats as
os.Stderr), the ioutil.Discard sink, or some other writer installed by the
embedding program. -/
inductive IOWriter where
  | stderr
  | discard
  | custom (id : Nat)
deriving DecidableEq, Repr

/-- flag.ErrorHandling.  Zero value (the one a fresh flag set carries) is
ContinueOnError. -/
inductive ErrorHandling where
  | continueOnError
  | exitOnError
  | panicOnError
deriving DecidableEq, Repr

/-- One defined flag: its name, whether it is a boolean flag (registered
with flag.Bool, so it may appear without a value), and its current value.
Non-boolean flags are modelled as string-valued; the value conversion of
richer flag types belongs to the flag package and is not observed by this
package. -/
structure Flg where
  name : String
  isBool : Bool
  value : String
deriving DecidableEq, Repr

/-- The flag.FlagSet state the package manipulates: the Usage hook (kept as
the lines it would print when invoked), the set name, whether Parse ran,
the flags that have been set (actual), the registered flags with their
current values (formal), the remaining arguments, the error-handling mode
and the output writer. -/
structure FlagSet where
  usage : Option (List String)
  name : String
  parsed : Bool
  actual : List String
  formal : List Flg
  args : List String
  errorHandling : ErrorHandling
  output : Option IOWriter
deriving DecidableEq, Repr

/-- A zero-value flag set, as carried by a freshly constructed Command. -/
def emptyFlagSet : FlagSet :=
  { usage := none, name := "", parsed := false, actual := [], formal := []
    args := [], errorHandling := .continueOnError, output := none }

/-- flag.FlagSet.Output: the destination writes go to — os.Stderr when no
output was ever set. -/
def FlagSet.Output (fs : FlagSet) : IOWriter :=
  fs.output.getD .stderr

/-- strconv.ParseBool, which backs Set on a boolean flag value. -/
def parseBool (s : String) : Option Bool :=
  if s = "1" ∨ s = "t" ∨ s = "T" ∨ s = "true" ∨ s = "TRUE" ∨ s = "True" then some true
  else if s = "0" ∨ s = "f" ∨ s = "F" ∨ s = "false" ∨ s = "FALSE" ∨ s = "False" then
    some false
  else none

/-- Store a value into the named flag (the Set call on the flag's Value). -/
def updateFlag : List Flg → String → String → List Flg
  | [], _, _ => []
  | f :: fs, n, v =>
    if f.name = n then { f with value := v } :: fs else f :: updateFlag fs n v

/-- The errors the flag package reports from parsing: ErrHelp for an
undefined `-h`/`-help`, and the formatted parse failures. -/
inductive FlagError where
  | help
  | badFlagFormat (s : String)
  | notDefined (name : String)
  | needsArgument (name : String)
  | invalidBoolValue (name value : String)
deriving DecidableEq, Repr

/-- First `=` split of the characters after a flag name's first character. -/
def splitFirstEq : List Char → List Char × Option (List Char)
  | [] => ([], none)
  | c :: cs =>
    if c = '=' then ([], some cs)
    else
      let r := splitFirstEq cs
      (c :: r.1, r.2)

/-- Split a flag token's name at the first `=` occurring at position one or
later, the way flag.parseOne looks for an inline value. -/
def splitAtEq : List Char → List Char × Option (List Char)
  | [] => ([], none)
  | c :: cs =>
    let r := splitFirstEq cs
    match r.2 with
    | some v => (c :: r.1, some v)
    | none => (c :: cs, none)

/-- The outcome of one flag.parseOne step: `done` ends the parsing loop
with the final flag state, remaining arguments and error (if any); `next`
records a successfully consumed flag and continues on the remaining
arguments. -/
inductive StepOut where
  | done (formal : List Flg) (actual args : List String) (err : Option FlagError)
  | next (formal : List Flg) (actual args : List String)
deriving DecidableEq, Repr

/-- The tail of flag.parseOne once the token is known to be a well-formed
flag, split at its inline `=` into a name and an optional value: look the
name up among the registered flags; an undefined `-h`/`-help` yields
ErrHelp and any other undefined name fails; a boolean flag takes its
optional inline value; a value flag takes its inline value or the
following token, failing when neither exists. -/
def handleFlag (formal : List Flg) (actual rest : List String) (name : String)
    (inlineVal : Option (List Char)) : StepOut :=
  match formal.find? (fun f => f.name == name) with
  | none =>
    if name = "help" ∨ name = "h" then .done formal actual rest (some .help)
    else .done formal actual rest (some (.notDefined name))
  | some f =>
    if f.isBool then
      match inlineVal with
      | some v =>
        match parseBool ⟨v⟩ with
        | some b =>
          .next (updateFlag formal name (if b then "true" else "false"))
            (actual ++ [name]) rest
        | none => .done formal actual rest (some (.invalidBoolValue name ⟨v⟩))
      | none => .next (updateFlag formal name "true") (actual ++ [name]) rest
    else
      match inlineVal with
      | some v => .next (updateFlag formal name ⟨v⟩) (actual ++ [name]) rest
      | none =>
        match rest with
        | v :: rest2 => .next (updateFlag formal name v) (actual ++ [name]) rest2
        | [] => .done formal actual [] (some (.needsArgument name))

/-- flag.parseOne: inspect the next token.  Parsing stops (consuming
nothing) at a missing token, one shorter than two characters or one not
starting with `-`; a lone `--` is consumed and stops parsing; a malformed
flag name fails; anything else is handed to the flag-processing tail. -/
def parseOne (formal : List Flg) (actual : List String) (args : List String) : StepOut :=
  match args with
  | [] => .done formal actual [] none
  | s :: rest =>
    match s.data with
    | [] => .done formal actual (s :: rest) none
    | [_] => .done formal actual (s :: rest) none
    | c0 :: c1 :: cs =>
      if c0 ≠ '-' then .done formal actual (s :: rest) none
      else if c1 = '-' ∧ cs = [] then .done formal actual rest none
      else
        let nameChars := if c1 = '-' then cs else c1 :: cs
        match nameChars with
        | [] => .done formal actual (s :: rest) (some (.badFlagFormat s))
        | n0 :: _ =>
          if n0 = '-' ∨ n0 = '=' then .done formal actual (s :: rest) (some (.badFlagFormat s))
          else
            let p := splitAtEq nameChars
            handleFlag formal actual rest ⟨p.1⟩ p.2

/-- Consuming a flag leaves at most the tokens after the flag token.
(Stated before the parsing loop because its termination rests on it.) -/
theorem handleFlag_next_length (formal : List Flg) (actual rest : List String)
    (name : String) (inlineVal : Option (List Char)) (f2 : List Flg)
    (a2 args2 : List String)
    (h : handleFlag formal actual rest name inlineVal = .next f2 a2 args2) :
    args2.length ≤ rest.length := by
  unfold handleFlag at h
  rcases hf : formal.find? (fun f => f.name == name) with _ | fl <;>
    rw [hf] at h <;> simp only [] at h
  · by_cases hh : name = "help" ∨ name = "h"
    · rw [if_pos hh] at h
      cases h
    · rw [if_neg hh] at h
      cases h
  · by_cases hb : fl.isBool = true
    · rw [if_pos hb] at h
      rcases hp : inlineVal with _ | v <;> rw [hp] at h <;> simp only [] at h
      · cases h
        exact le_refl _
      · rcases hpb : parseBool ⟨v⟩ with _ | b <;> rw [hpb] at h <;> simp only [] at h
        · cases h
        · cases h
          exact le_refl _
    · rw [if_neg hb] at h
      rcases hp : inlineVal with _ | v <;> rw [hp] at h <;> simp only [] at h
      · rcases rest with _ | ⟨v2, rest2⟩ <;> simp only [] at h
        · cases h
        · cases h
          simp
      · cases h
        exact le_refl _

/-- A successful parseOne step consumed at least one token.  (Stated
before the parsing loop because its termination rests on it.) -/
theorem parseOne_next_length (formal : List Flg) (actual args : List String)
    (f : List Flg) (a args2 : List String)
    (h : parseOne formal actual args = .next f a args2) : args2.length < args.length := by
  cases args with
  | nil => simp [parseOne] at h
  | cons s rest =>
    unfold parseOne at h
    simp only [] at h
    rcases hd : s.data with _ | ⟨c0, _ | ⟨c1, cs⟩⟩ <;> rw [hd] at h <;> simp only [] at h
    · cases h
    · cases h
    · by_cases h0 : c0 ≠ '-'
      · rw [if_pos h0] at h
        cases h
      · rw [if_neg h0] at h
        by_cases h1 : c1 = '-' ∧ cs = []
        · rw [if_pos h1] at h
          cases h
        · rw [if_neg h1] at h
          rcases hn : (if c1 = '-' then cs else c1 :: cs) with _ | ⟨n0, tl⟩ <;>
            rw [hn] at h <;> simp only [] at h
          · cases h
          · by_cases hb : n0 = '-' ∨ n0 = '='
            · rw [if_pos hb] at h
              cases h
            · rw [if_neg hb] at h
              have hle := handleFlag_next_length _ _ _ _ _ _ _ _ h
              simp only [List.length_cons]
              omega

/-- The loop of flag.FlagSet.Parse: repeat parseOne until it stops.
Returns the final formal and actual lists, the remaining arguments and the
error, matching what the flag set's fields hold when Parse returns. -/
def parseArgs (formal : List Flg) (actual : List String) (args : List String) :
    List Flg × List String × List String × Option FlagError :=
  match h : parseOne formal actual args with
  | .done f a rem e => (f, a, rem, e)
  | .next f a rem => parseArgs f a rem
termination_by args.length
decreasing_by exact parseOne_next_length _ _ _ _ _ _ h

/-- flag.FlagSet.Parse.  Every call in this package goes through configure
first, so the error-handling mode is ContinueOnError and a failure is
reported in the returned value instead of terminating the process; the
usage text a help request prints goes to the (discarded) output and is not
recorded here. -/
def FlagSet.parse (fs : FlagSet) (arguments : List String) : FlagSet × Option FlagError :=
  let r := parseArgs fs.formal fs.actual arguments
  ({ fs with parsed := true, formal := r.1, actual := r.2.1, args := r.2.2.1 }, r.2.2.2)

/-- Whether a token would be consumed as a flag by the parsing loop: at
least two characters long and starting with `-`. -/
def flagLike (s : String) : Bool :=
  match s.data with
  | c :: _ :: _ => c == '-'
  | _ => false

/-- A Command is an implementation of a single command (the struct of the
same name in the source).  The source's Run field receives the resolved
command itself together with the residual arguments and returns the exit
status; since the command value is already in hand wherever the field is
invoked, the embedding keeps the arguments-to-status function.  The Usage
field, a hook that prints custom usage text, is kept as the lines it would
print.  The parent back-reference is set only by Parse. -/
inductive Command where
  | mk
    (run : Option (List String → Int))
    (usage : Option (List String))
    (name : String)
    (usageLine : String)
    (short : String)
    (long : String)
    (flag : FlagSet)
    (customFlags : Bool)
    (commands : List Command)
    (parent : Option Command)

def Command.run : Command → Option (List String → Int)
  | .mk r _ _ _ _ _ _ _ _ _ => r

def Command.usage : Command → Option (List String)
  | .mk _ u _ _ _ _ _ _ _ _ => u

def Command.name : Command → String
  | .mk _ _ n _ _ _ _ _ _ _ => n

def Command.usageLine : Command → String
  | .mk _ _ _ ul _ _ _ _ _ _ => ul

def Command.short : Command → String
  | .mk _ _ _ _ sh _ _ _ _ _ => sh

def Command.long : Command → String
  | .mk _ _ _ _ _ lg _ _ _ _ => lg

def Command.flag : Command → FlagSet
  | .mk _ _ _ _ _ _ f _ _ _ => f

def Command.customFlags : Command → Bool
  | .mk _ _ _ _ _ _ _ cf _ _ => cf

def Command.commands : Command → List Command
  | .mk _ _ _ _ _ _ _ _ cs _ => cs

def Command.parent : Command → Option Command
  | .mk _ _ _ _ _ _ _ _ _ p => p

/-- Replace the command's flag set (an assignment to c.Flag). -/
def Command.withFlag : Command → FlagSet → Command
  | .mk r u n ul sh lg _ cf cs p, f => .mk r u n ul sh lg f cf cs p

/-- Replace the command's parent (an assignment to c.parent). -/
def Command.withParent : Command → Option Command → Command
  | .mk r u n ul sh lg f cf cs _, p => .mk r u n ul sh lg f cf cs p

/-- Replace the command's name (an assignment to c.Name). -/
def Command.withName : Command → String → Command
  | .mk r u _ ul sh lg f cf cs p, n => .mk r u n ul sh lg f cf cs p

/-- The loop of Command.LongName: walk the parent chain, prepending each
ancestor's name while that ancestor itself has a parent, so the root's
name is left out. -/
def Command.longNameLoop : Command → String → String
  | .mk _ _ n _ _ _ _ _ _ p, acc =>
    match p with
    | none => acc
    | some q => Command.longNameLoop q (n ++ " " ++ acc)

/-- Command.LongName: the command's long name — the space-joined chain of
names below the root.  Returns "" when the command has no parent (it is the
main command, or was never resolved), avoiding any failure on the main
command. -/
def Command.LongName : Command → String
  | c =>
    match c.parent with
    | none => ""
    | some q => Command.longNameLoop q c.name

/-- The loop of Command.String: walk the whole parent chain, prepending
every ancestor's name, the root's included. -/
def Command.strLoop : Option Command → String → String
  | none, acc => acc
  | some (.mk _ _ n _ _ _ _ _ _ p), acc => Command.strLoop p (n ++ " " ++ acc)

/-- Command.String (the Stringer): the full name of the command. -/
def Command.toString (c : Command) : String :=
  Command.strLoop c.parent c.name

/-- Command.Runnable reports whether the command can be run. -/
def Command.Runnable (c : Command) : Bool :=
  c.run.isSome

/-- A `%-11s` left-justified field. -/
def padRight (s : String) (n : Nat) : String :=
  s ++ ⟨List.replicate (n - s.length) ' '⟩

/-- The lines flag.PrintDefaults writes, one entry per registered flag.
The exact stdlib rendering of a flag's usage and default value is the flag
package's business; the embedding records one line per flag. -/
def FlagSet.printDefaults (fs : FlagSet) : List String :=
  fs.formal.map (fun f => "  -" ++ f.name ++ "\n")

/-- Command.defaultUsage: the usage line (full command name followed by
UsageLine), the flag defaults, the long description and the sub command
listing, as written to os.Stderr. -/
def Command.defaultUsage (c : Command) : List String :=
  ["usage: " ++ Command.toString c ++ " " ++ c.usageLine ++ "\n"]
    ++ c.flag.printDefaults
    ++ (if c.long ≠ "" then ["\n" ++ c.long ++ "\n"] else [])
    ++ (if c.commands.isEmpty then []
        else "\ncommands:\n\n" ::
          c.commands.map (fun k => "\t" ++ padRight k.name 11 ++ " " ++ k.short ++ "\n"))

/-- Command.usage (the method): the custom Usage hook when set, otherwise
defaultUsage. -/
def Command.usageOut (c : Command) : List String :=
  match c.usage with
  | some ls => ls
  | none => c.defaultUsage

/-- configure, first half: set c.Flag up with the command's full name and
continue-on-error handling (c.Flag.Init) and send its output to the
discard sink (c.Flag.SetOutput(ioutil.Discard)). -/
def configure (c : Command) : Command :=
  c.withFlag { c.flag with
    name := Command.toString c
    errorHandling := .continueOnError
    output := some .discard }

/-- The restore closure configure returns, run on every exit path of Parse
through defer: install c.usage as the flag set's Usage hook (kept as the
lines that hook would print) and reset the output to nil — the default,
meaning os.Stderr. -/
def restoreCmd (c : Command) : Command :=
  c.withFlag { c.flag with usage := some c.usageOut, output := none }

/-- The classified errors Parse returns: the package's ErrNoCommand and
ErrUnknownCommand values, and the errors of the flag package (flag.ErrHelp
is `flagError .help`). -/
inductive ParseErr where
  | noCommand
  | unknownCommand
  | flagError (e : FlagError)
deriving DecidableEq, Repr

/-- What Parse hands back.  The source returns a single *Command pointer
that either aliases main or one of its children and mutates both in place;
the embedding returns the final state of the root in `main`, the final
state of the matched child in `sel` (`none` when the returned pointer is
main itself), and the error. -/
structure ParseResult where
  main : Command
  sel : Option Command
  err : Option ParseErr

/-- The command value behind the pointer Parse returned: the selected
child, or main. -/
def ParseResult.cmd (r : ParseResult) : Command :=
  r.sel.getD r.main

/-- Parse parses the command-line from the argument list, which does not
include the main command name, and returns the invoked Command.  It
configures main.Flag (restoring it on every return path), parses the full
argument vector with it, classifies an empty residue as ErrNoCommand,
matches the first residual token against the children's names in declared
order, links the matched child to main, configures the child's flag set
the same way, and either leaves it unparsed (CustomFlags) or parses the
remaining tokens with it, returning the child with the outcome.  No name
match yields ErrUnknownCommand. -/
def Parse (main : Command) (argv : List String) : ParseResult :=
  let m := configure main
  let pr := FlagSet.parse m.flag argv
  let m2 := m.withFlag pr.1
  match pr.2 with
  | some e => { main := restoreCmd m2, sel := none, err := some (.flagError e) }
  | none =>
    match pr.1.args with
    | [] => { main := restoreCmd m2, sel := none, err := some .noCommand }
    | arg0 :: rest =>
      match m2.commands.find? (fun c => c.name == arg0) with
      | none => { main := restoreCmd m2, sel := none, err := some .unknownCommand }
      | some cmd =>
        let root := restoreCmd m2
        let c1 := cmd.withParent (some root)
        let c2 := configure c1
        if c2.customFlags then
          -- The source reassigns its local args to args[1:] here and never
          -- reads it again; the child flag set is left unparsed.
          { main := root, sel := some (restoreCmd c2), err := none }
        else
          let cr := FlagSet.parse c2.flag rest
          let c3 := c2.withFlag cr.1
          match cr.2 with
          | some e => { main := root, sel := some (restoreCmd c3), err := some (.flagError e) }
          | none => { main := root, sel := some (restoreCmd c3), err := none }

/-- Standard Posix exit status constants. -/
def ExitSuccess : Int := 0

def ExitFailure : Int := 1

def ExitUsageError : Int := 2

/-- The rendering fmt gives a Parse error, following the error strings of
the package and of the flag package. -/
def ParseErr.message : ParseErr → String
  | .noCommand => "no command"
  | .unknownCommand => "unknown command"
  | .flagError .help => "flag: help requested"
  | .flagError (.badFlagFormat s) => "bad flag syntax: " ++ s
  | .flagError (.notDefined n) => "flag provided but not defined: -" ++ n
  | .flagError (.needsArgument n) => "flag needs an argument: -" ++ n
  | .flagError (.invalidBoolValue n v) =>
      "invalid boolean value \x22" ++ v ++ "\x22 for -" ++ n ++ ": parse error"

/-- What a Run invocation did: the status it returned, the lines written to
os.Stderr, and whether a run behavior was invoked. -/
structure RunResult where
  status : Int
  stderr : List String
  invoked : Bool

/-- On the error paths Run renames main to os.Args[0] before printing; the
command pointer Parse returned then shows the renamed root — directly when
it is main, through its parent link when it is a child. -/
def cmdView (res : ParseResult) (osname : String) : Command :=
  match res.sel with
  | none => res.main.withName osname
  | some c => c.withParent (some (res.main.withName osname))

/-- Run parses the command line from os.Args[1:] (here split into osname
and argv) and executes the appropriate sub command of main.  It returns
the status code of Command.Run, or ExitUsageError in case of a parsing
error — after printing the unknown-command hint, the usage text for a help
request, or the error plus usage text — and likewise ExitUsageError, after
a diagnostic, when the resolved command is not runnable. -/
def Run (main : Command) (osname : String) (argv : List String) : RunResult :=
  let res := Parse main argv
  let args := res.cmd.flag.args
  match res.err with
  | some .unknownCommand =>
    let view := cmdView res osname
    { status := ExitUsageError
      stderr := [Command.toString view ++ " " ++ args.headD "" ++ ": unknown command\n",
                 "Run \x27" ++ Command.toString view ++ " -help\x27 for usage.\n"]
      invoked := false }
  | some (.flagError .help) =>
    let view := cmdView res osname
    { status := ExitUsageError, stderr := view.usageOut, invoked := false }
  | some e =>
    let view := cmdView res osname
    { status := ExitUsageError
      stderr := (Command.toString view ++ ": " ++ e.message ++ "\n") :: view.usageOut
      invoked := false }
  | none =>
    match res.cmd.run with
    | none =>
      { status := ExitUsageError
        stderr := [Command.toString res.cmd ++ ": not runnable\n"]
        invoked := false }
    | some f => { status := f args, stderr := [], invoked := true }

/-- SetExitStatus records a failure severity into the process-wide exit
status: the status is raised to n when currently below it and kept
otherwise.  (The source guards the comparison-and-store with a mutex; the
embedding is that guarded transition on the status value.) -/
def SetExitStatus (exitStatus n : Int) : Int :=
  if exitStatus < n then n else exitStatus

/-- The exit status after a sequence of SetExitStatus calls during one
process lifetime, starting from the initial status 0. -/
def exitStatusAfter (ns : List Int) : Int :=
  ns.foldl SetExitStatus 0

/-- A command node as the package's tests build them: a name, a run
behavior, a flag set, the custom-flags setting and the children; the
other fields are zero values. -/
def mkCmd (n : String) (run : Option (List String → Int)) (fs : FlagSet)
    (cf : Bool) (cs : List Command) : Command :=
  .mk run none n "" "" "" fs cf cs none

/-- A bare command node carrying a name and a parent link, the shape the
LongName/String tests build. -/
def namedNode (n : String) (p : Option Command) : Command :=
  .mk none none n "" "" "" emptyFlagSet false [] p

/-- A boolean flag as registered by flag.Bool with default false. -/
def boolFlag (n : String) : Flg :=
  ⟨n, true, "false"⟩

/-- A non-runnable child named `cmd`. -/
def childNonRunnable : Command :=
  mkCmd "cmd" none emptyFlagSet false []

/-- A root `test` with one non-runnable child `cmd`. -/
def treeNonRunnable : Command :=
  mkCmd "test" none emptyFlagSet false [childNonRunnable]

/-- A child `cmd` that does its own flag handling and has a boolean flag
`-flag` registered, as in the package's custom-flags test. -/
def childCustom : Command :=
  mkCmd "cmd" none { emptyFlagSet with formal := [boolFlag "flag"] } true []

/-- A root `test` carrying the custom-flags child. -/
def treeCustom : Command :=
  mkCmd "test" none emptyFlagSet false [childCustom]

/-- A childless root whose flag set was given a custom output writer
before Parse is called. -/
def treeCustomOutput : Command :=
  mkCmd "test" none { emptyFlagSet with output := some (.custom 7) } false []

/-- A runnable child named `cmd` with no flags. -/
def childRunnable : Command :=
  mkCmd "cmd" (some fun _ => 0) emptyFlagSet false []

/-- A root `test` with one runnable child `cmd`. -/
def treeRunnable : Command :=
  mkCmd "test" none emptyFlagSet false [childRunnable]

/-- A runnable child `build` with a boolean `-x` flag. -/
def childTool : Command :=
  mkCmd "build" (some fun _ => 0) { emptyFlagSet with formal := [boolFlag "x"] } false []

/-- A root `tool` with a boolean `-verbose` flag of its own, carrying the
`build` child. -/
def treeTool : Command :=
  mkCmd "tool" none { emptyFlagSet with formal := [boolFlag "verbose"] } false [childTool]

/-! Interaction of the field updates with the projections. -/

@[simp] theorem flag_withFlag (c : Command) (f : FlagSet) : (c.withFlag f).flag = f := by
  cases c
  rfl

@[simp] theorem run_withFlag (c : Command) (f : FlagSet) : (c.withFlag f).run = c.run := by
  cases c
  rfl

@[simp] theorem usage_withFlag (c : Command) (f : FlagSet) : (c.withFlag f).usage = c.usage := by
  cases c
  rfl

@[simp] theorem name_withFlag (c : Command) (f : FlagSet) : (c.withFlag f).name = c.name := by
  cases c
  rfl

@[simp] theorem customFlags_withFlag (c : Command) (f : FlagSet) :
    (c.withFlag f).customFlags = c.customFlags := by
  cases c
  rfl

@[simp] theorem commands_withFlag (c : Command) (f : FlagSet) :
    (c.withFlag f).commands = c.commands := by
  cases c
  rfl

@[simp] theorem parent_withFlag (c : Command) (f : FlagSet) :
    (c.withFlag f).parent = c.parent := by
  cases c
  rfl

@[simp] theorem parent_withParent (c : Command) (p : Option Command) :
    (c.withParent p).parent = p := by
  cases c
  rfl

@[simp] theorem run_withParent (c : Command) (p : Option Command) :
    (c.withParent p).run = c.run := by
  cases c
  rfl

@[simp] theorem usage_withParent (c : Command) (p : Option Command) :
    (c.withParent p).usage = c.usage := by
  cases c
  rfl

@[simp] theorem name_withParent (c : Command) (p : Option Command) :
    (c.withParent p).name = c.name := by
  cases c
  rfl

@[simp] theorem flag_withParent (c : Command) (p : Option Command) :
    (c.withParent p).flag = c.flag := by
  cases c
  rfl

@[simp] theorem customFlags_withParent (c : Command) (p : Option Command) :
    (c.withParent p).customFlags = c.customFlags := by
  cases c
  rfl

@[simp] theorem commands_withParent (c : Command) (p : Option Command) :
    (c.withParent p).commands = c.commands := by
  cases c
  rfl

@[simp] theorem name_withName (c : Command) (n : String) : (c.withName n).name = n := by
  cases c
  rfl

@[simp] theorem flag_withName (c : Command) (n : String) : (c.withName n).flag = c.flag := by
  cases c
  rfl

@[simp] theorem run_withName (c : Command) (n : String) : (c.withName n).run = c.run := by
  cases c
  rfl

@[simp] theorem parent_withName (c : Command) (n : String) :
    (c.withName n).parent = c.parent := by
  cases c
  rfl

/-! How configure and the restore closure act on the observable fields. -/

@[simp] theorem flag_formal_configure (c : Command) :
    (configure c).flag.formal = c.flag.formal := by
  simp [configure]

@[simp] theorem flag_actual_configure (c : Command) :
    (configure c).flag.actual = c.flag.actual := by
  simp [configure]

@[simp] theorem flag_args_configure (c : Command) :
    (configure c).flag.args = c.flag.args := by
  simp [configure]

@[simp] theorem flag_output_configure (c : Command) :
    (configure c).flag.output = some IOWriter.discard := by
  simp [configure]

@[simp] theorem run_configure (c : Command) : (configure c).run = c.run := by
  simp [configure]

@[simp] theorem name_configure (c : Command) : (configure c).name = c.name := by
  simp [configure]

@[simp] theorem customFlags_configure (c : Command) :
    (configure c).customFlags = c.customFlags := by
  simp [configure]

@[simp] theorem commands_configure (c : Command) : (configure c).commands = c.commands := by
  simp [configure]

@[simp] theorem parent_configure (c : Command) : (configure c).parent = c.parent := by
  simp [configure]

@[simp] theorem flag_formal_restoreCmd (c : Command) :
    (restoreCmd c).flag.formal = c.flag.formal := by
  simp [restoreCmd]

@[simp] theorem flag_actual_restoreCmd (c : Command) :
    (restoreCmd c).flag.actual = c.flag.actual := by
  simp [restoreCmd]

@[simp] theorem flag_args_restoreCmd (c : Command) :
    (restoreCmd c).flag.args = c.flag.args := by
  simp [restoreCmd]

@[simp] theorem flag_parsed_restoreCmd (c : Command) :
    (restoreCmd c).flag.parsed = c.flag.parsed := by
  simp [restoreCmd]

@[simp] theorem flag_output_restoreCmd (c : Command) :
    (restoreCmd c).flag.output = none := by
  simp [restoreCmd]

@[simp] theorem run_restoreCmd (c : Command) : (restoreCmd c).run = c.run := by
  simp [restoreCmd]

@[simp] theorem name_restoreCmd (c : Command) : (restoreCmd c).name = c.name := by
  simp [restoreCmd]

@[simp] theorem customFlags_restoreCmd (c : Command) :
    (restoreCmd c).customFlags = c.customFlags := by
  simp [restoreCmd]

@[simp] theorem commands_restoreCmd (c : Command) : (restoreCmd c).commands = c.commands := by
  simp [restoreCmd]

@[simp] theorem parent_restoreCmd (c : Command) : (restoreCmd c).parent = c.parent := by
  simp [restoreCmd]

/-! Unfolding lemmas for the flag-parsing loop. -/

/-- A stopping parseOne step ends the loop with its final state. -/
theorem parseArgs_done (formal : List Flg) (actual args : List String)
    (f2 : List Flg) (a2 rem : List String) (e : Option FlagError)
    (h : parseOne formal actual args = .done f2 a2 rem e) :
    parseArgs formal actual args = (f2, a2, rem, e) := by
  unfold parseArgs
  split <;> rename_i heq
  · rw [h] at heq
    cases heq
    rfl
  · rw [h] at heq
    cases heq

/-- A consuming parseOne step continues the loop on its remainder. -/
theorem parseArgs_next (formal : List Flg) (actual args : List String)
    (f2 : List Flg) (a2 rem : List String)
    (h : parseOne formal actual args = .next f2 a2 rem) :
    parseArgs formal actual args = parseArgs f2 a2 rem := by
  conv_lhs => unfold parseArgs
  split <;> rename_i heq
  · rw [h] at heq
    cases heq
  · rw [h] at heq
    cases heq
    rfl

/-- The parsing loop does nothing on an empty argument vector. -/
theorem parseArgs_nil (formal : List Flg) (actual : List String) :
    parseArgs formal actual [] = (formal, actual, [], none) :=
  parseArgs_done formal actual [] formal actual [] none rfl

/-- parseOne stops at once on a token that is not flag-shaped. -/
theorem parseOne_stop (formal : List Flg) (actual : List String) (s : String)
    (r : List String) (h : flagLike s = false) :
    parseOne formal actual (s :: r) = .done formal actual (s :: r) none := by
  unfold flagLike at h
  unfold parseOne
  rcases hd : s.data with _ | ⟨c0, _ | ⟨c1, cs⟩⟩ <;> simp only [hd]
  rw [hd] at h
  have hc0 : c0 ≠ '-' := by
    intro e
    rw [e] at h
    simp at h
  rw [if_pos hc0]

/-- The parsing loop stops at once on a token that is not flag-shaped,
leaving the flags and the whole remaining vector untouched. -/
theorem parseArgs_stop (formal : List Flg) (actual : List String) (s : String)
    (r : List String) (h : flagLike s = false) :
    parseArgs formal actual (s :: r) = (formal, actual, s :: r, none) :=
  parseArgs_done formal actual (s :: r) formal actual (s :: r) none
    (parseOne_stop formal actual s r h)

/-- With sibling names unique, looking a member command's name up in the
list finds exactly that command. -/
theorem find?_name_of_nodup (l : List Command) (cmd : Command)
    (hnd : (l.map Command.name).Nodup) (hm : cmd ∈ l) :
    l.find? (fun c => c.name == cmd.name) = some cmd := by
  induction l with
  | nil => cases hm
  | cons a t ih =>
    rw [List.map_cons, List.nodup_cons] at hnd
    rcases List.mem_cons.mp hm with rfl | hmt
    · exact List.find?_cons_of_pos t (by simp)
    · by_cases ha : a.name = cmd.name
      · rw [ha] at hnd
        exact absurd (List.mem_map_of_mem Command.name hmt) hnd.1
      · rw [List.find?_cons_of_neg _ (by simpa using ha)]
        exact ih hnd.2 hmt

/-- One propositional unfolding round of the parsing loop, used to
evaluate it on concrete argument vectors. -/
theorem parseArgs_eqn (f : List Flg) (a args : List String) :
    parseArgs f a args =
      match parseOne f a args with
      | .done f2 a2 rem e => (f2, a2, rem, e)
      | .next f2 a2 rem => parseArgs f2 a2 rem := by
  rcases hp : parseOne f a args with ⟨f2, a2, rem, e⟩ | ⟨f2, a2, rem⟩
  · rw [parseArgs_done f a args f2 a2 rem e hp]
  · rw [parseArgs_next f a args f2 a2 rem hp]

/-! C9: the process-wide exit status. -/

/-- SetExitStatus computes the maximum of the current status and n. -/
theorem SetExitStatus_eq_max (s n : Int) : SetExitStatus s n = max s n := by
  unfold SetExitStatus
  rcases lt_or_le s n with h | h
  · rw [if_pos h, max_eq_right h.le]
  · rw [if_neg (not_lt.mpr h), max_eq_left h]

theorem foldl_SetExitStatus (ns : List Int) :
    ∀ s : Int, ns.foldl SetExitStatus s = ns.foldl max s := by
  induction ns with
  | nil => intro s; rfl
  | cons n t ih => intro s; simpa [List.foldl_cons, SetExitStatus_eq_max] using ih (max s n)

/-- C9: for every sequence of SetExitStatus calls within one process
lifetime, the recorded exit status is the maximum of all values ever set
(together with the initial 0): a call with n below the current status
leaves the status unchanged, and no call ever lowers it. -/
theorem c9_exit_status_monotonic_max (ns : List Int) (s n : Int) (h : n < s) :
    exitStatusAfter ns = ns.foldl max 0 ∧ SetExitStatus s n = s ∧ s ≤ SetExitStatus s n := by
  refine ⟨foldl_SetExitStatus ns 0, ?_, ?_⟩
  · rw [SetExitStatus_eq_max, max_eq_left h.le]
  · rw [SetExitStatus_eq_max]
    exact le_max_left s n

theorem c9_exit_status_monotonic_max_witness :
    (1 : Int) < 3 ∧
      (exitStatusAfter [1, 3, 1] = [(1 : Int), 3, 1].foldl max 0 ∧
        SetExitStatus 3 1 = 3 ∧ (3 : Int) ≤ SetExitStatus 3 1) :=
  ⟨by decide, c9_exit_status_monotonic_max [1, 3, 1] 3 1 (by decide)⟩

/-! C6: display-name composition. -/

/-- C6: for a chain root→a→b→c linked by parent references, String on the
last node is the space-joined sequence of all four names and LongName is
the same sequence with the root's name omitted; any node with no parent
has LongName "" and String equal to its own name, both being total
functions. -/
theorem c6_display_name_composition (nr na nb nc : String) (c : Command)
    (hc : c.parent = none) :
    Command.toString (namedNode nc (some (namedNode nb (some (namedNode na
        (some (namedNode nr none))))))) = nr ++ " " ++ na ++ " " ++ nb ++ " " ++ nc ∧
    Command.LongName (namedNode nc (some (namedNode nb (some (namedNode na
        (some (namedNode nr none))))))) = na ++ " " ++ nb ++ " " ++ nc ∧
    Command.LongName c = "" ∧ Command.toString c = c.name := by
  refine ⟨?_, ?_, ?_, ?_⟩
  · simp [Command.toString, Command.strLoop, namedNode, Command.parent, Command.name,
      String.append_assoc]
  · simp [Command.LongName, Command.longNameLoop, namedNode, Command.parent, Command.name,
      String.append_assoc]
  · cases c with
    | mk r u n ul sh lg f cf cs p =>
      simp only [Command.parent] at hc
      simp [Command.LongName, Command.parent, hc]
  · cases c with
    | mk r u n ul sh lg f cf cs p =>
      simp only [Command.parent] at hc
      simp [Command.toString, Command.strLoop, Command.parent, Command.name, hc]

theorem c6_display_name_composition_witness :
    (namedNode "solo" none).parent = none ∧
      (Command.toString (namedNode "c" (some (namedNode "b" (some (namedNode "a"
          (some (namedNode "test" none))))))) = "test" ++ " " ++ "a" ++ " " ++ "b" ++ " " ++ "c" ∧
        Command.LongName (namedNode "c" (some (namedNode "b" (some (namedNode "a"
          (some (namedNode "test" none))))))) = "a" ++ " " ++ "b" ++ " " ++ "c" ∧
        Command.LongName (namedNode "solo" none) = "" ∧
        Command.toString (namedNode "solo" none) = (namedNode "solo" none).name) :=
  ⟨rfl, c6_display_name_composition "test" "a" "b" "c" (namedNode "solo" none) rfl⟩

/-! C8: empty residue yields ErrNoCommand on the root. -/

/-- C8: whenever parsing the root's flags over the whole argument vector
succeeds and leaves no positional argument, Parse returns the root
together with ErrNoCommand — an error value distinct from
ErrUnknownCommand, from flag.ErrHelp, and from every other flag parse
error. -/
theorem c8_no_command (main : Command) (argv : List String) (F : List Flg)
    (A : List String)
    (h1 : parseArgs main.flag.formal main.flag.actual argv = (F, A, [], none)) :
    (Parse main argv).err = some ParseErr.noCommand ∧ (Parse main argv).sel = none ∧
      (Parse main argv).cmd.name = main.name ∧
      ParseErr.noCommand ≠ ParseErr.unknownCommand ∧
      ∀ e : FlagError, ParseErr.noCommand ≠ ParseErr.flagError e := by
  refine ⟨?_, ?_, ?_, by decide, fun e => by simp⟩ <;>
    simp [Parse, FlagSet.parse, ParseResult.cmd, h1]

theorem c8_no_command_witness :
    parseArgs treeNonRunnable.flag.formal treeNonRunnable.flag.actual [] =
      ([], [], [], none) ∧
      ((Parse treeNonRunnable []).err = some ParseErr.noCommand ∧
        (Parse treeNonRunnable []).sel = none ∧
        (Parse treeNonRunnable []).cmd.name = treeNonRunnable.name ∧
        ParseErr.noCommand ≠ ParseErr.unknownCommand ∧
        ∀ e : FlagError, ParseErr.noCommand ≠ ParseErr.flagError e) := by
  have h1 : parseArgs treeNonRunnable.flag.formal treeNonRunnable.flag.actual [] =
      ([], [], [], none) := by
    simp [treeNonRunnable, mkCmd, emptyFlagSet, Command.flag, parseArgs_nil]
  exact ⟨h1, c8_no_command treeNonRunnable [] [] [] h1⟩

/-! C5: root flags before the subcommand token. -/

/-- C5: when the root's own flag set parses the whole argument vector and
leaves the subcommand token x plus the following tokens, and a child named
x (without custom flag handling) is matched, then in the result of Parse
the root's flag values are exactly those the root's parse produced (so
they stay readable afterwards), the root's residue is the subcommand token
and everything after it, and the selected child's flag state is obtained
by parsing only the tokens after the subcommand token against the child's
own flag set — the root's set never touches them, and the error is exactly
the child parse's outcome. -/
theorem c5_root_flags_before_subcommand (main : Command) (argv : List String)
    (F : List Flg) (A : List String) (x : String) (rest : List String) (cmd : Command)
    (h1 : parseArgs main.flag.formal main.flag.actual argv = (F, A, x :: rest, none))
    (h2 : main.commands.find? (fun c => c.name == x) = some cmd)
    (h3 : cmd.customFlags = false) :
    (Parse main argv).main.flag.formal = F ∧
      (Parse main argv).main.flag.args = x :: rest ∧
      (Parse main argv).sel.isSome = true ∧
      (Parse main argv).cmd.flag.formal =
        (parseArgs cmd.flag.formal cmd.flag.actual rest).1 ∧
      (Parse main argv).cmd.flag.args =
        (parseArgs cmd.flag.formal cmd.flag.actual rest).2.2.1 ∧
      (Parse main argv).err = Option.map ParseErr.flagError
        (parseArgs cmd.flag.formal cmd.flag.actual rest).2.2.2 := by
  rcases hc : parseArgs cmd.flag.formal cmd.flag.actual rest with ⟨Fc, Ac, remc, ec⟩
  cases ec <;>
    refine ⟨?_, ?_, ?_, ?_, ?_, ?_⟩ <;>
      simp [Parse, FlagSet.parse, ParseResult.cmd, h1, h2, h3, hc]

theorem c5_root_flags_before_subcommand_witness :
    parseArgs treeTool.flag.formal treeTool.flag.actual ["-verbose", "build", "-x"] =
      ([⟨"verbose", true, "true"⟩], ["verbose"], ["build", "-x"], none) ∧
      treeTool.commands.find? (fun c => c.name == "build") = some childTool ∧
      childTool.customFlags = false ∧
      ((Parse treeTool ["-verbose", "build", "-x"]).main.flag.formal =
          [⟨"verbose", true, "true"⟩] ∧
        (Parse treeTool ["-verbose", "build", "-x"]).main.flag.args = ["build", "-x"] ∧
        (Parse treeTool ["-verbose", "build", "-x"]).sel.isSome = true ∧
        (Parse treeTool ["-verbose", "build", "-x"]).cmd.flag.formal =
          (parseArgs childTool.flag.formal childTool.flag.actual ["-x"]).1 ∧
        (Parse treeTool ["-verbose", "build", "-x"]).cmd.flag.args =
          (parseArgs childTool.flag.formal childTool.flag.actual ["-x"]).2.2.1 ∧
        (Parse treeTool ["-verbose", "build", "-x"]).err = Option.map ParseErr.flagError
          (parseArgs childTool.flag.formal childTool.flag.actual ["-x"]).2.2.2) := by
  have h1 : parseArgs treeTool.flag.formal treeTool.flag.actual ["-verbose", "build", "-x"] =
      ([⟨"verbose", true, "true"⟩], ["verbose"], ["build", "-x"], none) := by
    simp [treeTool, mkCmd, boolFlag, emptyFlagSet, Command.flag, parseArgs_eqn, parseOne,
      handleFlag, splitAtEq, splitFirstEq, parseBool, updateFlag]
  have h2 : treeTool.commands.find? (fun c => c.name == "build") = some childTool := by
    simp [treeTool, childTool, mkCmd, Command.commands, Command.name, List.find?]
  exact ⟨h1, h2, rfl, c5_root_flags_before_subcommand treeTool ["-verbose", "build", "-x"]
    [⟨"verbose", true, "true"⟩] ["verbose"] "build" ["-x"] childTool h1 h2 rfl⟩

/-! C7: a failing child flag parse returns the child, parent already set. -/

/-- C7: when a child is matched (no custom flag handling) and parsing the
tokens after the subcommand token against the child's flag set fails,
Parse returns the child — not the root — together with that parse error,
and the returned child's parent field is already set to the root, so the
child's full display name is available for diagnostics. -/
theorem c7_child_parse_error_returns_child (main : Command) (argv : List String)
    (F : List Flg) (A : List String) (x : String) (rest : List String) (cmd : Command)
    (e : FlagError)
    (h1 : parseArgs main.flag.formal main.flag.actual argv = (F, A, x :: rest, none))
    (h2 : main.commands.find? (fun c => c.name == x) = some cmd)
    (h3 : cmd.customFlags = false)
    (h4 : (parseArgs cmd.flag.formal cmd.flag.actual rest).2.2.2 = some e) :
    (Parse main argv).err = some (ParseErr.flagError e) ∧
      (Parse main argv).sel.isSome = true ∧
      (Parse main argv).cmd.name = cmd.name ∧
      (Parse main argv).cmd.parent = some (Parse main argv).main := by
  rcases hc : parseArgs cmd.flag.formal cmd.flag.actual rest with ⟨Fc, Ac, remc, ec⟩
  rw [hc] at h4
  simp only [] at h4
  subst h4
  refine ⟨?_, ?_, ?_, ?_⟩ <;>
    simp [Parse, FlagSet.parse, ParseResult.cmd, h1, h2, h3, hc]

theorem c7_child_parse_error_returns_child_witness :
    parseArgs treeRunnable.flag.formal treeRunnable.flag.actual ["cmd", "-x"] =
      ([], [], ["cmd", "-x"], none) ∧
      treeRunnable.commands.find? (fun c => c.name == "cmd") = some childRunnable ∧
      childRunnable.customFlags = false ∧
      (parseArgs childRunnable.flag.formal childRunnable.flag.actual ["-x"]).2.2.2 =
        some (FlagError.notDefined "x") ∧
      ((Parse treeRunnable ["cmd", "-x"]).err =
          some (ParseErr.flagError (FlagError.notDefined "x")) ∧
        (Parse treeRunnable ["cmd", "-x"]).sel.isSome = true ∧
        (Parse treeRunnable ["cmd", "-x"]).cmd.name = childRunnable.name ∧
        (Parse treeRunnable ["cmd", "-x"]).cmd.parent =
          some (Parse treeRunnable ["cmd", "-x"]).main) := by
  have h1 : parseArgs treeRunnable.flag.formal treeRunnable.flag.actual ["cmd", "-x"] =
      ([], [], ["cmd", "-x"], none) := by
    simp [treeRunnable, mkCmd, emptyFlagSet, Command.flag]
    exact parseArgs_stop _ _ _ _ (by decide)
  have h2 : treeRunnable.commands.find? (fun c => c.name == "cmd") = some childRunnable := by
    simp [treeRunnable, childRunnable, mkCmd, Command.commands, Command.name, List.find?]
  have h4 : (parseArgs childRunnable.flag.formal childRunnable.flag.actual ["-x"]).2.2.2 =
      some (FlagError.notDefined "x") := by
    simp [childRunnable, mkCmd, emptyFlagSet, Command.flag, parseArgs_eqn, parseOne,
      handleFlag, splitAtEq, splitFirstEq]
  exact ⟨h1, h2, rfl, h4, c7_child_parse_error_returns_child treeRunnable ["cmd", "-x"]
    [] [] "cmd" ["-x"] childRunnable (FlagError.notDefined "x") h1 h2 rfl h4⟩

/-! C4: a named runnable child is selected and linked to the root. -/

/-- C4: for every root tree whose sibling names are unique (the data
model's invariant) containing a runnable child named X — X being an
ordinary name the root's flag parsing does not consume as a flag —
invoking Parse with the argument vector [X] succeeds with a nil error,
returns that child, and the returned child's parent field equals the root
that Parse hands back. -/
theorem c4_runnable_child_selected (main : Command) (X : String) (cmd : Command)
    (hnd : (main.commands.map Command.name).Nodup)
    (hm : cmd ∈ main.commands) (hx : cmd.name = X)
    (hr : cmd.Runnable = true) (hfl : flagLike X = false) :
    (Parse main [X]).err = none ∧
      (Parse main [X]).sel.isSome = true ∧
      (Parse main [X]).cmd.name = X ∧
      (Parse main [X]).cmd.run = cmd.run ∧
      (Parse main [X]).cmd.parent = some (Parse main [X]).main := by
  have h1 : parseArgs main.flag.formal main.flag.actual [X] =
      (main.flag.formal, main.flag.actual, [X], none) :=
    parseArgs_stop _ _ _ _ hfl
  have h2 : main.commands.find? (fun c => c.name == X) = some cmd := by
    rw [← hx]
    exact find?_name_of_nodup _ _ hnd hm
  by_cases hcf : cmd.customFlags = true
  · refine ⟨?_, ?_, ?_, ?_, ?_⟩ <;>
      simp [Parse, FlagSet.parse, ParseResult.cmd, h1, h2, hcf, hx]
  · have hcf' : cmd.customFlags = false := by simpa using hcf
    refine ⟨?_, ?_, ?_, ?_, ?_⟩ <;>
      simp [Parse, FlagSet.parse, ParseResult.cmd, h1, h2, hcf', hx, parseArgs_nil]

theorem c4_runnable_child_selected_witness :
    (treeRunnable.commands.map Command.name).Nodup ∧
      childRunnable ∈ treeRunnable.commands ∧
      childRunnable.name = "cmd" ∧
      childRunnable.Runnable = true ∧
      flagLike "cmd" = false ∧
      ((Parse treeRunnable ["cmd"]).err = none ∧
        (Parse treeRunnable ["cmd"]).sel.isSome = true ∧
        (Parse treeRunnable ["cmd"]).cmd.name = "cmd" ∧
        (Parse treeRunnable ["cmd"]).cmd.run = childRunnable.run ∧
        (Parse treeRunnable ["cmd"]).cmd.parent = some (Parse treeRunnable ["cmd"]).main) := by
  have hnd : (treeRunnable.commands.map Command.name).Nodup := by
    simp [treeRunnable, mkCmd, Command.commands]
  have hm : childRunnable ∈ treeRunnable.commands := by
    simp [treeRunnable, mkCmd, Command.commands]
  exact ⟨hnd, hm, rfl, rfl, by decide,
    c4_runnable_child_selected treeRunnable "cmd" childRunnable hnd hm rfl rfl (by decide)⟩

/-! C1: a non-runnable name match is selected, not reported unknown. -/

/-- C1 counterexample: with a root `test` whose only child `cmd` is not
runnable, Parse on ["cmd"] does not return the root with
ErrUnknownCommand as the claim states — it returns a nil error and
selects the non-runnable child itself. -/
theorem c1_counterexample :
    (Parse treeNonRunnable ["cmd"]).err ≠ some ParseErr.unknownCommand ∧
      (Parse treeNonRunnable ["cmd"]).err = none ∧
      (Parse treeNonRunnable ["cmd"]).sel.map Command.name = some "cmd" ∧
      (Parse treeNonRunnable ["cmd"]).cmd.run = none := by
  refine ⟨?_, ?_, ?_, ?_⟩ <;>
    simp [Parse, FlagSet.parse, ParseResult.cmd, parseArgs_eqn, parseOne, handleFlag,
      treeNonRunnable, childNonRunnable, mkCmd, emptyFlagSet, Command.name, Command.flag,
      Command.commands, Command.run, Command.customFlags, List.find?, configure,
      restoreCmd, Command.withFlag, Command.withParent]

/-- C1 amended: when the first residual positional token names a child —
runnable or not — Parse selects that child: it never falls through to
ErrUnknownCommand on a name match, and the result is the child with the
outcome of the child's own flag handling.  (The rejection of a
non-runnable command is performed later, by Run.) -/
theorem c1_non_runnable_child_still_selected (main : Command) (argv : List String)
    (F : List Flg) (A : List String) (x : String) (rest : List String) (cmd : Command)
    (h1 : parseArgs main.flag.formal main.flag.actual argv = (F, A, x :: rest, none))
    (h2 : main.commands.find? (fun c => c.name == x) = some cmd)
    (h3 : cmd.run = none) :
    (Parse main argv).err ≠ some ParseErr.unknownCommand ∧
      (Parse main argv).sel.isSome = true ∧
      (Parse main argv).cmd.name = cmd.name ∧
      (Parse main argv).cmd.run = none := by
  by_cases hcf : cmd.customFlags = true
  · refine ⟨?_, ?_, ?_, ?_⟩ <;>
      simp [Parse, FlagSet.parse, ParseResult.cmd, h1, h2, hcf, h3]
  · have hcf' : cmd.customFlags = false := by simpa using hcf
    rcases hc : parseArgs cmd.flag.formal cmd.flag.actual rest with ⟨Fc, Ac, remc, ec⟩
    cases ec <;>
      refine ⟨?_, ?_, ?_, ?_⟩ <;>
        simp [Parse, FlagSet.parse, ParseResult.cmd, h1, h2, hcf', hc, h3]

theorem c1_non_runnable_child_still_selected_witness :
    parseArgs treeNonRunnable.flag.formal treeNonRunnable.flag.actual ["cmd"] =
      ([], [], ["cmd"], none) ∧
      treeNonRunnable.commands.find? (fun c => c.name == "cmd") = some childNonRunnable ∧
      childNonRunnable.run = none ∧
      ((Parse treeNonRunnable ["cmd"]).err ≠ some ParseErr.unknownCommand ∧
        (Parse treeNonRunnable ["cmd"]).sel.isSome = true ∧
        (Parse treeNonRunnable ["cmd"]).cmd.name = childNonRunnable.name ∧
        (Parse treeNonRunnable ["cmd"]).cmd.run = none) := by
  have h1 : parseArgs treeNonRunnable.flag.formal treeNonRunnable.flag.actual ["cmd"] =
      ([], [], ["cmd"], none) := by
    simp [treeNonRunnable, mkCmd, emptyFlagSet, Command.flag]
    exact parseArgs_stop _ _ _ _ (by decide)
  have h2 : treeNonRunnable.commands.find? (fun c => c.name == "cmd") =
      some childNonRunnable := by
    simp [treeNonRunnable, childNonRunnable, mkCmd, Command.commands, Command.name,
      List.find?]
  exact ⟨h1, h2, rfl, c1_non_runnable_child_still_selected treeNonRunnable ["cmd"]
    [] [] "cmd" [] childNonRunnable h1 h2 rfl⟩

/-! C2: the residual arguments of a custom-flags child. -/

/-- C2, evaluated at the failing input of the package's own custom-flags
test: Parse on ["cmd", "-flag", "arg"] with the custom-flags child does
succeed with a nil error and leaves the child's flag set unparsed and its
registered flag untouched — but the residual arguments the caller can
observe on the returned child (cmd.Flag.Args(), the very value Run hands
to the run behavior and the test compares) are empty, not the tokens
["-flag", "arg"] after the subcommand selector: the source drops them in
a dead local reassignment. -/
theorem c2_custom_flags_divergence :
    (Parse treeCustom ["cmd", "-flag", "arg"]).err = none ∧
      (Parse treeCustom ["cmd", "-flag", "arg"]).sel.map Command.name = some "cmd" ∧
      (Parse treeCustom ["cmd", "-flag", "arg"]).cmd.flag.parsed = false ∧
      (Parse treeCustom ["cmd", "-flag", "arg"]).cmd.flag.formal = [boolFlag "flag"] ∧
      (Parse treeCustom ["cmd", "-flag", "arg"]).cmd.flag.args = [] ∧
      ([] : List String) ≠ ["-flag", "arg"] := by
  refine ⟨?_, ?_, ?_, ?_, ?_, by decide⟩ <;>
    simp [Parse, FlagSet.parse, ParseResult.cmd, parseArgs_eqn, parseOne, handleFlag,
      treeCustom, childCustom, mkCmd, boolFlag, emptyFlagSet, Command.name, Command.flag,
      Command.commands, Command.customFlags, List.find?, configure, restoreCmd,
      Command.withFlag, Command.withParent]

/-! C3: what the restore closure does to the output destination. -/

/-- C3 counterexample: a root whose flag-set output had been pointed at a
custom writer before the call does not get that writer back — after Parse
the output field is nil, so the destination is os.Stderr, not the original
(pre-call) custom writer. -/
theorem c3_counterexample :
    FlagSet.Output treeCustomOutput.flag = IOWriter.custom 7 ∧
      (Parse treeCustomOutput ["x"]).main.flag.output = none ∧
      FlagSet.Output (Parse treeCustomOutput ["x"]).main.flag = IOWriter.stderr ∧
      IOWriter.stderr ≠ IOWriter.custom 7 := by
  refine ⟨rfl, ?_, ?_, by decide⟩ <;>
    simp [Parse, FlagSet.parse, FlagSet.Output, ParseResult.cmd, parseArgs_eqn, parseOne,
      handleFlag, treeCustomOutput, mkCmd, emptyFlagSet, Command.name, Command.flag,
      Command.commands, Command.customFlags, List.find?, configure, restoreCmd,
      Command.withFlag, Command.withParent]

/-- C3 amended: on every exit path of Parse, the flag set of each node
that was configured during the call (the root always, the matched child
when there is one) has its output reset to nil — the default destination,
os.Stderr.  This equals the pre-call destination whenever the output had
not been modified before the call, which is exactly what configure's
contract assumes. -/
theorem c3_output_restored_to_default (main : Command) (argv : List String) :
    (Parse main argv).main.flag.output = none ∧
      (∀ c, (Parse main argv).sel = some c → c.flag.output = none) ∧
      (main.flag.output = none →
        FlagSet.Output (Parse main argv).main.flag = FlagSet.Output main.flag) := by
  have h1 : (Parse main argv).main.flag.output = none := by
    unfold Parse
    simp only []
    repeat' split
    all_goals simp
  have h2 : ∀ c, (Parse main argv).sel = some c → c.flag.output = none := by
    intro c hc
    unfold Parse at hc
    simp only [] at hc
    repeat' split at hc
    all_goals simp only [] at hc
    all_goals cases hc
    all_goals simp
  refine ⟨h1, h2, fun h0 => ?_⟩
  rw [FlagSet.Output, FlagSet.Output, h0, h1]

theorem c3_output_restored_to_default_witness :
    (Parse treeNonRunnable ["cmd"]).main.flag.output = none ∧
      (Parse treeNonRunnable ["cmd"]).sel = some (Parse treeNonRunnable ["cmd"]).cmd ∧
      (Parse treeNonRunnable ["cmd"]).cmd.flag.output = none ∧
      FlagSet.Output (Parse treeNonRunnable ["cmd"]).main.flag =
        FlagSet.Output treeNonRunnable.flag := by
  have h := c3_output_restored_to_default treeNonRunnable ["cmd"]
  have hsel : (Parse treeNonRunnable ["cmd"]).sel =
      some (Parse treeNonRunnable ["cmd"]).cmd := by
    simp [Parse, FlagSet.parse, ParseResult.cmd, parseArgs_eqn, parseOne, handleFlag,
      treeNonRunnable, childNonRunnable, mkCmd, emptyFlagSet, Command.name, Command.flag,
      Command.commands, Command.customFlags, List.find?, configure, restoreCmd,
      Command.withFlag, Command.withParent]
  exact ⟨h.1, hsel, h.2.1 _ hsel, h.2.2 rfl⟩

/-! C10: the driver's handling of a resolved but non-runnable command. -/

/-- C10: whenever Parse succeeds with a nil error but the resolved command
is not runnable, Run invokes no run behavior, prints the `not runnable`
diagnostic for the resolved command's full name, and returns
ExitUsageError, which is the usage-error exit code 2. -/
theorem c10_run_not_runnable (main : Command) (osname : String) (argv : List String)
    (h1 : (Parse main argv).err = none)
    (h2 : (Parse main argv).cmd.run = none) :
    Run main osname argv =
      { status := ExitUsageError
        stderr := [Command.toString (Parse main argv).cmd ++ ": not runnable\n"]
        invoked := false } ∧
      ExitUsageError = 2 := by
  refine ⟨?_, rfl⟩
  unfold Run
  simp only [h1, h2]

theorem c10_run_not_runnable_witness :
    (Parse treeNonRunnable ["cmd"]).err = none ∧
      (Parse treeNonRunnable ["cmd"]).cmd.run = none ∧
      (Run treeNonRunnable "prog" ["cmd"] =
        { status := ExitUsageError
          stderr := [Command.toString (Parse treeNonRunnable ["cmd"]).cmd ++
            ": not runnable\n"]
          invoked := false } ∧
        ExitUsageError = 2) := by
  have h1 : (Parse treeNonRunnable ["cmd"]).err = none := by
    simp [Parse, FlagSet.parse, ParseResult.cmd, parseArgs_eqn, parseOne, handleFlag,
      treeNonRunnable, childNonRunnable, mkCmd, emptyFlagSet, Command.name, Command.flag,
      Command.commands, Command.customFlags, List.find?, configure, restoreCmd,
      Command.withFlag, Command.withParent]
  have h2 : (Parse treeNonRunnable ["cmd"]).cmd.run = none := by
    simp [Parse, FlagSet.parse, ParseResult.cmd, parseArgs_eqn, parseOne, handleFlag,
      treeNonRunnable, childNonRunnable, mkCmd, emptyFlagSet, Command.name, Command.flag,
      Command.commands, Command.customFlags, Command.run, List.find?, configure,
      restoreCmd, Command.withFlag, Command.withParent]
  exact ⟨h1, h2, c10_run_not_runnable treeNonRunnable "prog" ["cmd"] h1 h2⟩
